import Mathlib

/-!
Shallow embedding of the funcX high-throughput Manager
(`funcx/executors/high_throughput/funcx_manager.py`) and of the executor-side
ZMQ pipe `TasksOutgoing` (`funcx/executors/high_throughput/zmq_pipes.py`),
together with proofs settling the spec's claims about them.

Machine bytes are modelled as `Nat`s below 256, byte strings as `List Nat`,
Python `dict`s as association lists (so a missing key is observable, matching
`KeyError`), and wall-clock instants as abstract `Nat` time stamps.  The
`WorkerMap` container class lives in `worker_map.py`, which is not part of the
sources under verification; the few `WorkerMap` operations the claims touch are
modelled from the specification and marked as such in their doc comments.
-/

namespace FuncxManager

/-- Association-list lookup, modelling Python `d[k]` / `k in d` on a dict. -/
def alookup [DecidableEq κ] : List (κ × α) → κ → Option α
  | [], _ => none
  | (k, v) :: rest, key => if key = k then some v else alookup rest key

/-- Association-list update of an existing key, modelling `d[k] = v` when
`k in d`.  Keys not present are left untouched. -/
def aupdate [DecidableEq κ] : List (κ × α) → κ → α → List (κ × α)
  | [], _, _ => []
  | (k, v) :: rest, key, nv =>
    if key = k then (k, nv) :: rest else (k, v) :: aupdate rest key nv

/-- `HEARTBEAT_CODE = (2 ** 32) - 1` from `funcx_manager.py`. -/
def HEARTBEAT_CODE : Nat := 2 ^ 32 - 1

/-- Python `n.to_bytes(4, "little")`: the 4-byte little-endian encoding
(meaningful for `n < 2^32`; Python raises `OverflowError` above that, which
callers below exclude by hypothesis). -/
def toBytesLE4 (n : Nat) : List Nat :=
  [n % 256, n / 256 % 256, n / 65536 % 256, n / 16777216 % 256]

/-- Decoder for 4-byte little-endian frames (used to state that a frame
*encodes* a number). -/
def fromBytesLE4 : List Nat → Nat
  | [a, b, c, d] => a + 256 * b + 65536 * c + 16777216 * d
  | _ => 0

/-- A Python value as far as the Manager inspects it: a byte string or a
text string. -/
inductive PyVal where
  | bytes (b : List Nat)
  | str (s : List Char)
  deriving DecidableEq

/-- Abstract model of `pickle.dumps` restricted to the values the Manager
serializes: an injective encoding into byte strings (tag byte then payload). -/
def pickle_dumps : PyVal → List Nat
  | .bytes b => 0 :: b
  | .str s => 1 :: s.map Char.toNat

/-- The byte string `b"KILL"` (ASCII). -/
def KILL_BYTES : List Nat := [75, 73, 76, 76]

/-- A task record as the Manager stores it in a task queue: the two fields it
reads (`task_id`, `buffer`); the payload is opaque. -/
structure PyTask where
  task_id : PyVal
  buffer : PyVal
  deriving DecidableEq

/-- The KILL sentinel task pushed by `remove_worker_init`:
`{"task_id": pickle.dumps(b"KILL"), "buffer": b"KILL"}`. -/
def KILL_TASK : PyTask :=
  { task_id := .bytes (pickle_dumps (.bytes KILL_BYTES)),
    buffer := .bytes KILL_BYTES }

/-- The slice of `Manager` instance state (`self.…` plus the `WorkerMap`
fields) that `remove_worker_init` can see, used to state its frame effect.
`to_die_count` is a per-type counter on the `WorkerMap`; `worker_map.py` is
not among the sources, so per the spec it is modelled as a total per-type
count ("`to_die[type]`: number of outstanding drain requests"). -/
structure ManagerState where
  task_queues : List (String × List PyTask)
  to_die_count : String → Nat
  pending_workers : Int
  active_workers : Int
  worker_queues : String → List (List Nat)
  next_worker_q : List String
  pending_result_queue : List (List Nat)
  task_recv_counter : Nat
  task_done_counter : Nat

/-- `Manager.remove_worker_init` (funcx_manager.py lines 414-426):
increment `worker_map.to_die_count[worker_type]`, then push the KILL sentinel
onto `task_queues[worker_type]`.  Returns `none` when `worker_type` is not a
key of `task_queues` (Python would raise `KeyError`). -/
def remove_worker_init (worker_type : String) (st : ManagerState) :
    Option ManagerState :=
  match alookup st.task_queues worker_type with
  | none => none
  | some q =>
    some { st with
      to_die_count := fun u =>
        if u = worker_type then st.to_die_count u + 1 else st.to_die_count u,
      task_queues := aupdate st.task_queues worker_type (q ++ [KILL_TASK]) }

/-- `self.max_queue_size = max_queue_size + self.worker_count`
(funcx_manager.py line 159). -/
def maxQueueSizeInit (max_queue_size_arg worker_count : Nat) : Nat :=
  max_queue_size_arg + worker_count

/-- `pending_task_count = task_recv_counter - task_done_counter`
(funcx_manager.py line 232), on Python's unbounded integers. -/
def pending_task_count (task_recv_counter task_done_counter : Nat) : Int :=
  (task_recv_counter : Int) - (task_done_counter : Int)

/-- The capacity-request step of the dispatch loop (funcx_manager.py lines
241-244): when `pending_task_count < max_queue_size` and
`ready_worker_count > 0`, send `ready_worker_count.to_bytes(4, "little")`
on the uplink-tasks socket; otherwise send nothing. -/
def capacityRequest (pending : Int) (max_queue_size ready_worker_count : Nat) :
    Option (List Nat) :=
  if pending < (max_queue_size : Int) ∧ 0 < ready_worker_count then
    some (toBytesLE4 ready_worker_count)
  else none

/-- The heartbeat frame `(HEARTBEAT_CODE).to_bytes(4, "little")`
(funcx_manager.py line 189). -/
def heartbeatFrame : List Nat := toBytesLE4 HEARTBEAT_CODE

/-- The heartbeat step of the dispatch loop (funcx_manager.py lines 237-239):
`if time.time() > last_beat + heartbeat_period: heartbeat(); last_beat = now`.
Returns the frame sent (if any) and the new `last_beat`. -/
def heartbeatStep (now last_beat heartbeat_period : Nat) :
    Option (List Nat) × Nat :=
  if last_beat + heartbeat_period < now then (some heartbeatFrame, now)
  else (none, last_beat)

/-- The heartbeat step as the claim states it ("if now ≥ last_heartbeat_sent +
heartbeat_period, send…"), for comparison with the source's strict test. -/
def claimedHeartbeatStep (now last_beat heartbeat_period : Nat) :
    Option (List Nat) × Nat :=
  if last_beat + heartbeat_period ≤ now then (some heartbeatFrame, now)
  else (none, last_beat)

/-- The poll-timer backoff of the dispatch loop (funcx_manager.py lines
322-324): `if not poll_timer: poll_timer = poll_period;
poll_timer = min(heartbeat_period * 1000, poll_timer * 2)`. -/
def updatePollTimer (heartbeat_period poll_period poll_timer : Nat) : Nat :=
  min (heartbeat_period * 1000)
    ((if poll_timer = 0 then poll_period else poll_timer) * 2)

/-- The backoff formula as the claim states it:
`min(heartbeat_period · 1000, max(poll_timer · 2, initial_poll_period))`,
for comparison with the source. -/
def claimedUpdatePollTimer (heartbeat_period poll_period poll_timer : Nat) :
    Nat :=
  min (heartbeat_period * 1000) (max (poll_timer * 2) poll_period)

/-- Python `s.split(sep)` restricted to a one-character separator, on
character lists, accumulator-style. -/
def pySplitAux (sep : Char) : List Char → List Char → List (List Char)
  | [], acc => [acc.reverse]
  | c :: rest, acc =>
    if c = sep then acc.reverse :: pySplitAux sep rest []
    else pySplitAux sep rest (c :: acc)

/-- Python `s.split(';')`. -/
def pySplit (s : List Char) : List (List Char) := pySplitAux ';' s []

/-- `task_type = task["task_id"].split(";")[1]` (funcx_manager.py line 308):
`none` models the `IndexError` Python raises when the list has no index 1. -/
def deriveTaskType (task_id : List Char) : Option (List Char) :=
  (pySplit task_id).get? 1

/-- The suffix of a string after its first `';'` (the spec's wording for the
routing type), for comparison with the source's `split(';')[1]`. -/
def suffixAfterFirstSemi : List Char → Option (List Char)
  | [] => none
  | c :: rest => if c = ';' then some rest else suffixAfterFirstSemi rest

/-- A task record as received from the Interchange: the `task_id` is a text
string `<id>;<task_type>`, the buffer is opaque. -/
structure RecvTask where
  task_id : List Char
  buffer : PyVal
  deriving DecidableEq

/-- The message a frame from the Interchange deserializes to
(`pickle.loads(pkl_msg)` at funcx_manager.py line 290): the string `"STOP"`,
the integer `HEARTBEAT_CODE`, or a list of task records. -/
inductive InMsg where
  | stop
  | heartbeat
  | taskBatch (tasks : List RecvTask)
  deriving DecidableEq

/-- The dispatch-loop state touched by the uplink-receive path of
`pull_tasks`: the loop locals (`poll_timer`, `last_interchange_contact`,
`last_beat`, the two counters, the kill flag) together with `task_queues`
and the lazily-created `worker_map.total_worker_type_counts` entries
(funcx_manager.py line 314). -/
structure LoopState where
  poll_timer : Nat
  last_interchange_contact : Nat
  last_beat : Nat
  task_recv_counter : Nat
  task_done_counter : Nat
  kill_flag : Bool
  task_queues : List (List Char × List RecvTask)
  total_worker_type_counts : List (List Char × Int)
  deriving DecidableEq

/-- Enqueue one received task (funcx_manager.py lines 306-315): derive the
task type from `task_id` (an `IndexError` aborts the handler), create the
queue and the zero `total_worker_type_counts` entry if the type is new, then
put the task at the tail of its queue. -/
def enqueueRecvTask (st : LoopState) (t : RecvTask) : Except String LoopState :=
  match deriveTaskType t.task_id with
  | none => .error "IndexError"
  | some ty =>
    match alookup st.task_queues ty with
    | none =>
      .ok { st with
        task_queues := st.task_queues ++ [(ty, [t])],
        total_worker_type_counts := st.total_worker_type_counts ++ [(ty, 0)] }
    | some q =>
      .ok { st with task_queues := aupdate st.task_queues ty (q ++ [t]) }

/-- Enqueue a batch of received tasks in order (`for task in tasks`). -/
def enqueueRecvBatch : LoopState → List RecvTask → Except String LoopState
  | st, [] => .ok st
  | st, t :: rest => do enqueueRecvBatch (← enqueueRecvTask st t) rest

/-- The uplink-receive path of `pull_tasks` (funcx_manager.py lines 287-316),
entered when `task_incoming` polled readable: set `poll_timer = 0`, receive,
set `last_interchange_contact = now`, then dispatch on the deserialized
message (`STOP` sets the kill flag; a heartbeat does nothing further; a task
batch bumps `task_recv_counter` by the batch size and enqueues each task). -/
def handleIncoming (st : LoopState) (now : Nat) (msg : InMsg) :
    Except String LoopState :=
  let st1 := { st with poll_timer := 0, last_interchange_contact := now }
  match msg with
  | .stop => .ok { st1 with kill_flag := true }
  | .heartbeat => .ok st1
  | .taskBatch ts =>
    enqueueRecvBatch
      { st1 with task_recv_counter := st1.task_recv_counter + ts.length } ts

/-- `push_poll_period = max(10, poll_period)` in milliseconds
(funcx_manager.py line 390 divides by 1000 to get seconds for `Queue.get`). -/
def pushPollPeriod (poll_period : Nat) : Nat := max 10 poll_period

/-- State of the result-pusher loop `push_results`: the accumulation buffer
`items` and the flush timer `last_beat`. -/
structure PushState where
  items : List (List Nat)
  last_beat : Nat
  deriving DecidableEq

/-- One iteration of `push_results` (funcx_manager.py lines 396-410): append
the dequeued item (if the `Queue.get` with timeout `push_poll_period` yielded
one), then, when the buffer has reached `max_queue_size` or `now` has passed
`last_beat + push_poll_period`, reset `last_beat` and — only if the buffer is
nonempty — send it as one multipart message and empty it.  Returns the new
state and the message sent, if any. -/
def pushIteration (max_queue_size ppp : Nat) (st : PushState)
    (now : Nat) (dequeued : Option (List Nat)) :
    PushState × Option (List (List Nat)) :=
  if max_queue_size ≤ (st.items ++ dequeued.toList).length
      ∨ st.last_beat + ppp < now then
    if st.items ++ dequeued.toList = []
    then (⟨st.items ++ dequeued.toList, now⟩, none)
    else (⟨[], now⟩, some (st.items ++ dequeued.toList))
  else (⟨st.items ++ dequeued.toList, st.last_beat⟩, none)

/-- `push_results` run over a trace of (poll instant, dequeued item) pairs,
collecting the multipart messages sent. -/
def pushRun (max_queue_size ppp : Nat) :
    PushState → List (Nat × Option (List Nat)) →
    PushState × List (List (List Nat))
  | st, [] => (st, [])
  | st, (now, deq) :: rest =>
    let step := pushIteration max_queue_size ppp st now deq
    let tail := pushRun max_queue_size ppp step.1 rest
    (tail.1, step.2.toList ++ tail.2)

/-- The pusher iteration as the claim states it: the buffer is flushed
exactly when it is nonempty and either full or `push_poll_period` has elapsed
since the **last flush** (the last actual send), for comparison with the
source, whose timer resets whenever the flush condition fires even if nothing
was sent. -/
def claimedPushIteration (max_queue_size ppp : Nat) (st : PushState)
    (now : Nat) (dequeued : Option (List Nat)) :
    PushState × Option (List (List Nat)) :=
  if (max_queue_size ≤ (st.items ++ dequeued.toList).length
        ∨ st.last_beat + ppp < now)
      ∧ st.items ++ dequeued.toList ≠ []
  then (⟨[], now⟩, some (st.items ++ dequeued.toList))
  else (⟨st.items ++ dequeued.toList, st.last_beat⟩, none)

/-- The claim's pusher run over a trace, collecting sent messages. -/
def claimedPushRun (max_queue_size ppp : Nat) :
    PushState → List (Nat × Option (List Nat)) →
    PushState × List (List (List Nat))
  | st, [] => (st, [])
  | st, (now, deq) :: rest =>
    let step := claimedPushIteration max_queue_size ppp st now deq
    let tail := claimedPushRun max_queue_size ppp step.1 rest
    (tail.1, step.2.toList ++ tail.2)

/-- Worker lifecycle states (spec §3). -/
inductive WState where
  | pending
  | active
  | draining
  | dead
  deriving DecidableEq

/-- The slice of `WorkerMap` state the REGISTER handler touches: the known
workers (id → bound type and lifecycle state), the per-type idle queues, and
the scalar `pending_workers` / `active_workers` counts. -/
structure WorkerMapState where
  workers : List (List Nat × (String × WState))
  worker_queues : String → List (List Nat)
  pending_workers : Int
  active_workers : Int

/-- Modelled from the spec: `WorkerMap.register_worker` lives in
`worker_map.py`, which is not among the sources.  Spec §4.2: "`register(
worker_id, type)`: transition PENDING → ACTIVE; …; push id onto
`idle_queues[type]`.  Fails silently if the id is unknown (stale)."  (The
pending/active counter updates are performed by the caller in
`funcx_manager.py`, lines 256-257, and so are not part of this model.) -/
def register_worker (w_id : List Nat) (w_type : String)
    (wm : WorkerMapState) : WorkerMapState :=
  match alookup wm.workers w_id with
  | none => wm
  | some _ =>
    { wm with
      workers := aupdate wm.workers w_id (w_type, .active),
      worker_queues := fun u =>
        if u = w_type then wm.worker_queues u ++ [w_id]
        else wm.worker_queues u }

/-- The REGISTER branch of `pull_tasks` (funcx_manager.py lines 251-258):
`pending_workers -= 1`, `active_workers += 1` — performed unconditionally —
then `register_worker(w_id, reg_info["worker_type"])`. -/
def handleRegister (w_id : List Nat) (w_type : String)
    (wm : WorkerMapState) : WorkerMapState :=
  register_worker w_id w_type
    { wm with
      pending_workers := wm.pending_workers - 1,
      active_workers := wm.active_workers + 1 }

/-- An event of the per-type task-queue discipline of `pull_tasks`: `enq` is
a `task_queues[ty].put(t)` (receipt from the Interchange at line 315, or a
KILL push), `disp` is one matching step for type `ty` (lines 362-376): pop
the queue head with `task_queues[ty].get()` and send it to a worker. -/
inductive DEvent (τ : Type) where
  | enq (ty : String) (t : τ)
  | disp (ty : String)

/-- The per-type queues (total map, empty by default — dict entries are
created empty immediately before the first `put`) together with the ordered
log of tasks sent on the downlink socket. -/
structure DState (τ : Type) where
  queues : String → List τ
  sent : List (String × τ)

/-- One step of the queue discipline: `enq` appends at the tail; `disp` pops
the head and logs the send, and does nothing on an empty queue (the matching
loop checks `qsize() != 0` before calling `get`). -/
def dstep (st : DState τ) : DEvent τ → DState τ
  | .enq ty t =>
    { st with queues := fun u =>
        if u = ty then st.queues ty ++ [t] else st.queues u }
  | .disp ty =>
    match st.queues ty with
    | [] => st
    | x :: rest =>
      { queues := fun u => if u = ty then rest else st.queues u,
        sent := st.sent ++ [(ty, x)] }

/-- Run the queue discipline from a given state over an event list. -/
def drun (st : DState τ) (evs : List (DEvent τ)) : DState τ :=
  evs.foldl dstep st

/-- The initial dispatch state: all queues empty, nothing sent. -/
def dinit : DState τ := ⟨fun _ => [], []⟩

/-- The tasks of type `ty` enqueued by an event list, in arrival order. -/
def arrivalsFor (ty : String) (evs : List (DEvent τ)) : List τ :=
  evs.filterMap fun e =>
    match e with
    | .enq ty' t => if ty' = ty then some t else none
    | .disp _ => none

/-- The tasks of type `ty` in a send log, in send order. -/
def sentFor (ty : String) (sent : List (String × τ)) : List τ :=
  sent.filterMap fun p => if p.1 = ty then some p.2 else none

/-- `TasksOutgoing.put` (zmq_pipes.py lines 72-111).  `writable i` tells
whether the `POLLOUT` poll of iteration `i` finds the socket writable.
Returns the list of messages actually sent (`send_pyobj`) and `true` for a
normal return, `false` for the final `raise zmq.error.Again`.  The loop
state is `(i, timeout_ms, current_wait)` with `current_wait < max_timeout`
as the guard, `timeout_ms` growing by 1 on each failed poll and being added
to `current_wait`. -/
def put_aux (writable : Nat → Bool) (message : α)
    (max_timeout i timeout_ms current_wait : Nat) : List α × Bool :=
  if current_wait < max_timeout then
    if writable i then ([message], true)
    else
      put_aux writable message max_timeout (i + 1) (timeout_ms + 1)
        (current_wait + (timeout_ms + 1))
  else ([], false)
termination_by max_timeout - current_wait
decreasing_by omega

/-- `TasksOutgoing.put(message, max_timeout)`: the loop entered with
`timeout_ms = 0`, `current_wait = 0`. -/
def tasksOutgoingPut (writable : Nat → Bool) (message : α)
    (max_timeout : Nat) : List α × Bool :=
  put_aux writable message max_timeout 0 0 0

/-- The poll iterations `put_aux` performs before returning, for stating
that on the `Again` path the socket was never writable at any of them. -/
def put_polls (writable : Nat → Bool)
    (max_timeout i timeout_ms current_wait : Nat) : List Nat :=
  if current_wait < max_timeout then
    if writable i then [i]
    else
      i :: put_polls writable max_timeout (i + 1) (timeout_ms + 1)
        (current_wait + (timeout_ms + 1))
  else []
termination_by max_timeout - current_wait
decreasing_by omega

/-- A concrete Manager state used to instantiate theorems: one empty RAW
queue, all counters zero. -/
def mgr0 : ManagerState :=
  { task_queues := [("RAW", [])],
    to_die_count := fun _ => 0,
    pending_workers := 0,
    active_workers := 0,
    worker_queues := fun _ => [],
    next_worker_q := [],
    pending_result_queue := [],
    task_recv_counter := 0,
    task_done_counter := 0 }

/-- A concrete dispatch-loop state with a nonzero poll timer. -/
def loopState0 : LoopState :=
  { poll_timer := 100,
    last_interchange_contact := 7,
    last_beat := 3,
    task_recv_counter := 2,
    task_done_counter := 1,
    kill_flag := false,
    task_queues := [],
    total_worker_type_counts := [] }

/-- A concrete worker-map state knowing no worker ids. -/
def wmap0 : WorkerMapState :=
  { workers := [],
    worker_queues := fun _ => [],
    pending_workers := 5,
    active_workers := 2 }

/-- A two-iteration pusher trace: the flush condition fires at `t = 100` with
an empty buffer (resetting the timer without a send), then an item is
dequeued at `t = 105`. -/
def pushTrace : List (Nat × Option (List Nat)) := [(100, none), (105, some [0])]

theorem alookup_aupdate_self [DecidableEq κ] (l : List (κ × α)) (k : κ)
    (v w : α) (h : alookup l k = some w) :
    alookup (aupdate l k v) k = some v := by
  induction l with
  | nil => simp [alookup] at h
  | cons p rest ih =>
    obtain ⟨k', v'⟩ := p
    by_cases hk : k = k'
    · subst hk
      simp [alookup, aupdate]
    · simp only [alookup, aupdate, if_neg hk] at h ⊢
      exact ih h

theorem alookup_aupdate_ne [DecidableEq κ] (l : List (κ × α)) (k u : κ)
    (v : α) (h : u ≠ k) :
    alookup (aupdate l k v) u = alookup l u := by
  induction l with
  | nil => simp [aupdate]
  | cons p rest ih =>
    obtain ⟨k', v'⟩ := p
    by_cases hk : k = k'
    · subst hk
      simp [alookup, aupdate, if_neg h]
    · simp only [aupdate, if_neg hk, alookup]
      by_cases hu : u = k'
      · simp [if_pos hu]
      · simp [if_neg hu, ih]

theorem pySplitAux_no_sep (sep : Char) (l acc : List Char) (h : sep ∉ l) :
    pySplitAux sep l acc = [acc.reverse ++ l] := by
  induction l generalizing acc with
  | nil => simp [pySplitAux]
  | cons c rest ih =>
    have hc : ¬c = sep := fun hc => h (hc ▸ List.mem_cons_self c rest)
    have hrest : sep ∉ rest := fun hr => h (List.mem_cons_of_mem _ hr)
    simp [pySplitAux, hc, ih _ hrest]

theorem pySplitAux_found (sep : Char) (l₁ l₂ acc : List Char)
    (h : sep ∉ l₁) :
    pySplitAux sep (l₁ ++ sep :: l₂) acc
      = (acc.reverse ++ l₁) :: pySplitAux sep l₂ [] := by
  induction l₁ generalizing acc with
  | nil => simp [pySplitAux]
  | cons c rest ih =>
    have hc : ¬c = sep := fun hc => h (hc ▸ List.mem_cons_self c rest)
    have hrest : sep ∉ rest := fun hr => h (List.mem_cons_of_mem _ hr)
    simp [pySplitAux, hc, ih _ hrest]

theorem suffixAfterFirstSemi_found (idc ty : List Char) (h : ';' ∉ idc) :
    suffixAfterFirstSemi (idc ++ ';' :: ty) = some ty := by
  induction idc with
  | nil => simp [suffixAfterFirstSemi]
  | cons c rest ih =>
    have hc : ¬c = ';' := fun hc => h (hc ▸ List.mem_cons_self c rest)
    have hrest : ';' ∉ rest := fun hr => h (List.mem_cons_of_mem _ hr)
    simp [suffixAfterFirstSemi, hc, ih hrest]

theorem deriveTaskType_found (idc ty : List Char) (h1 : ';' ∉ idc)
    (h2 : ';' ∉ ty) : deriveTaskType (idc ++ ';' :: ty) = some ty := by
  simp [deriveTaskType, pySplit, pySplitAux_found ';' idc ty [] h1,
    pySplitAux_no_sep ';' ty [] h2]

theorem deriveTaskType_no_semi (s : List Char) (h : ';' ∉ s) :
    deriveTaskType s = none := by
  simp [deriveTaskType, pySplit, pySplitAux_no_sep ';' s [] h]

/-- C2: when `worker_type` is a key of `task_queues`, `remove_worker_init`
increments `to_die_count[worker_type]` by exactly one, appends exactly one
KILL sentinel task (whose `task_id` is the pickled byte-string `KILL` and
whose `buffer` is the literal bytes `KILL`) to `task_queues[worker_type]`,
and changes no other Manager state: all other types' counters and queues and
every other field are untouched. -/
theorem remove_worker_init_effect (st : ManagerState) (wt : String)
    (q : List PyTask) (h : alookup st.task_queues wt = some q) :
    ∃ st', remove_worker_init wt st = some st'
      ∧ st'.to_die_count wt = st.to_die_count wt + 1
      ∧ (∀ u, u ≠ wt → st'.to_die_count u = st.to_die_count u)
      ∧ alookup st'.task_queues wt = some (q ++ [KILL_TASK])
      ∧ (∀ u, u ≠ wt → alookup st'.task_queues u = alookup st.task_queues u)
      ∧ KILL_TASK.task_id = PyVal.bytes (pickle_dumps (PyVal.bytes KILL_BYTES))
      ∧ KILL_TASK.buffer = PyVal.bytes KILL_BYTES
      ∧ st'.pending_workers = st.pending_workers
      ∧ st'.active_workers = st.active_workers
      ∧ st'.worker_queues = st.worker_queues
      ∧ st'.next_worker_q = st.next_worker_q
      ∧ st'.pending_result_queue = st.pending_result_queue
      ∧ st'.task_recv_counter = st.task_recv_counter
      ∧ st'.task_done_counter = st.task_done_counter := by
  have he : remove_worker_init wt st = some
      { st with
        to_die_count := fun u =>
          if u = wt then st.to_die_count u + 1 else st.to_die_count u,
        task_queues := aupdate st.task_queues wt (q ++ [KILL_TASK]) } := by
    simp [remove_worker_init, h]
  refine ⟨_, he, ?_, ?_, ?_, ?_, rfl, rfl, rfl, rfl, rfl, rfl, rfl, rfl, rfl⟩
  · simp
  · intro u hu
    simp [if_neg hu]
  · exact alookup_aupdate_self _ _ _ _ h
  · intro u hu
    exact alookup_aupdate_ne _ _ _ _ hu

/-- Witness for C2 at a concrete state: the RAW queue exists and the effect
holds there. -/
theorem remove_worker_init_effect_witness :
    alookup mgr0.task_queues "RAW" = some []
    ∧ (∃ st', remove_worker_init "RAW" mgr0 = some st'
      ∧ st'.to_die_count "RAW" = mgr0.to_die_count "RAW" + 1
      ∧ (∀ u, u ≠ "RAW" → st'.to_die_count u = mgr0.to_die_count u)
      ∧ alookup st'.task_queues "RAW" = some ([] ++ [KILL_TASK])
      ∧ (∀ u, u ≠ "RAW" →
          alookup st'.task_queues u = alookup mgr0.task_queues u)
      ∧ KILL_TASK.task_id = PyVal.bytes (pickle_dumps (PyVal.bytes KILL_BYTES))
      ∧ KILL_TASK.buffer = PyVal.bytes KILL_BYTES
      ∧ st'.pending_workers = mgr0.pending_workers
      ∧ st'.active_workers = mgr0.active_workers
      ∧ st'.worker_queues = mgr0.worker_queues
      ∧ st'.next_worker_q = mgr0.next_worker_q
      ∧ st'.pending_result_queue = mgr0.pending_result_queue
      ∧ st'.task_recv_counter = mgr0.task_recv_counter
      ∧ st'.task_done_counter = mgr0.task_done_counter) :=
  ⟨rfl, remove_worker_init_effect mgr0 "RAW" [] rfl⟩

/-- C3: a capacity request is sent on uplink-tasks iff the backlog is
strictly below `max_queue_size` and `ready_worker_count` is strictly
positive; the frame is the 4-byte little-endian encoding of
`ready_worker_count`, and the `max_queue_size` used is the constructor
argument plus `worker_count`. -/
theorem capacity_request_spec (arg wc ready : Nat) (backlog : Int)
    (hr : ready < 2 ^ 32) :
    (capacityRequest backlog (maxQueueSizeInit arg wc) ready
        = some (toBytesLE4 ready)
      ↔ backlog < ((arg + wc : Nat) : Int) ∧ 0 < ready)
    ∧ (capacityRequest backlog (maxQueueSizeInit arg wc) ready = none
      ↔ ¬(backlog < ((arg + wc : Nat) : Int) ∧ 0 < ready))
    ∧ (toBytesLE4 ready).length = 4
    ∧ fromBytesLE4 (toBytesLE4 ready) = ready
    ∧ maxQueueSizeInit arg wc = arg + wc := by
  refine ⟨?_, ?_, rfl, ?_, rfl⟩
  · unfold capacityRequest maxQueueSizeInit
    split <;> simp_all
  · unfold capacityRequest maxQueueSizeInit
    split <;> simp_all
  · unfold toBytesLE4 fromBytesLE4
    simp only []
    omega

/-- Witness for C3 at concrete values. -/
theorem capacity_request_spec_witness :
    (3 : Nat) < 2 ^ 32
    ∧ ((capacityRequest 2 (maxQueueSizeInit 10 4) 3 = some (toBytesLE4 3)
        ↔ (2 : Int) < ((10 + 4 : Nat) : Int) ∧ 0 < 3)
      ∧ (capacityRequest 2 (maxQueueSizeInit 10 4) 3 = none
        ↔ ¬((2 : Int) < ((10 + 4 : Nat) : Int) ∧ 0 < 3))
      ∧ (toBytesLE4 3).length = 4
      ∧ fromBytesLE4 (toBytesLE4 3) = 3
      ∧ maxQueueSizeInit 10 4 = 10 + 4) :=
  ⟨by decide, capacity_request_spec 10 4 3 2 (by decide)⟩

/-- C4 counterexample: at `poll_timer = 0`, `poll_period = 100`,
`heartbeat_period = 30`, the source's backoff yields `200` (twice the
initial poll period), while the claimed formula
`min(heartbeat_period · 1000, max(poll_timer · 2, initial_poll_period))`
yields `100`. -/
theorem poll_backoff_counterexample :
    updatePollTimer 30 100 0 = 200
    ∧ claimedUpdatePollTimer 30 100 0 = 100
    ∧ (200 : Nat) ≠ 100 := by decide

/-- C4 amended: on a no-message iteration the source sets
`poll_timer ← min(heartbeat_period · 1000, 2 · (poll_timer if poll_timer ≠ 0
else initial_poll_period))`; from `poll_timer = 0` the next value is
`min(heartbeat_period · 1000, 2 · initial_poll_period)`, twice the initial
poll period (up to the heartbeat cap); the claimed formula agrees with the
source whenever `poll_timer ≠ 0` and `2 · poll_timer ≥ initial_poll_period`. -/
theorem poll_backoff_amended (hb pp pt : Nat) (h0 : pt ≠ 0)
    (h1 : pp ≤ pt * 2) :
    updatePollTimer hb pp pt = min (hb * 1000) (2 * pt)
    ∧ updatePollTimer hb pp 0 = min (hb * 1000) (2 * pp)
    ∧ updatePollTimer hb pp pt = claimedUpdatePollTimer hb pp pt := by
  unfold updatePollTimer claimedUpdatePollTimer
  rw [if_neg h0, if_pos rfl]
  omega

/-- Witness for C4's amended statement at concrete values. -/
theorem poll_backoff_amended_witness :
    (100 : Nat) ≠ 0 ∧ (50 : Nat) ≤ 100 * 2
    ∧ (updatePollTimer 30 50 100 = min (30 * 1000) (2 * 100)
      ∧ updatePollTimer 30 50 0 = min (30 * 1000) (2 * 50)
      ∧ updatePollTimer 30 50 100 = claimedUpdatePollTimer 30 50 100) :=
  ⟨by decide, by decide, poll_backoff_amended 30 50 100 (by decide) (by decide)⟩

/-- C5 counterexample: receiving the HEARTBEAT sentinel resets `poll_timer`
to `0` (funcx_manager.py line 288, executed before the message is
inspected), so from a state with `poll_timer = 100` the poll timer is *not*
left unchanged. -/
theorem heartbeat_branch_counterexample :
    (handleIncoming loopState0 50 InMsg.heartbeat).toOption.map
        LoopState.poll_timer = some 0
    ∧ loopState0.poll_timer = 100
    ∧ (0 : Nat) ≠ 100 := by decide

/-- C5 amended: when the received message deserializes to the HEARTBEAT
sentinel, exactly two pieces of dispatch-loop state change:
`last_interchange_contact` becomes the current time and `poll_timer` is
reset to `0`; the task queues, the counters, the kill flag and the worker
map's per-type counts are all unchanged. -/
theorem heartbeat_branch_amended (st : LoopState) (now : Nat) :
    handleIncoming st now InMsg.heartbeat
      = Except.ok { st with poll_timer := 0,
                            last_interchange_contact := now } := rfl

/-- C8 counterexample: a REGISTER frame for an id unknown to the worker map
still decrements `pending_workers` (5 → 4) and increments `active_workers`
(2 → 3), because the handler updates the counters before
`register_worker` ever checks the id. -/
theorem register_stale_counterexample :
    alookup wmap0.workers [9] = none
    ∧ (handleRegister [9] "RAW" wmap0).pending_workers = 4
    ∧ (handleRegister [9] "RAW" wmap0).active_workers = 3
    ∧ wmap0.pending_workers = 5
    ∧ wmap0.active_workers = 2
    ∧ (4 : Int) ≠ 5 := by
  refine ⟨rfl, rfl, rfl, rfl, rfl, by decide⟩

/-- C8 amended: handling a REGISTER frame for an unknown (stale) id leaves
the worker map's per-id records and idle queues unchanged (the modelled
`register_worker` fails silently), but the handler has already decremented
`pending_workers` and incremented `active_workers` unconditionally, so those
two aggregate counters do change. -/
theorem register_stale_amended (wm : WorkerMapState) (w : List Nat)
    (t : String) (h : alookup wm.workers w = none) :
    handleRegister w t wm
      = { wm with pending_workers := wm.pending_workers - 1,
                  active_workers := wm.active_workers + 1 } := by
  simp [handleRegister, register_worker, h]

/-- Witness for C8's amended statement at a concrete state. -/
theorem register_stale_amended_witness :
    alookup wmap0.workers [9] = none
    ∧ handleRegister [9] "RAW" wmap0
      = { wmap0 with pending_workers := wmap0.pending_workers - 1,
                     active_workers := wmap0.active_workers + 1 } :=
  ⟨rfl, register_stale_amended wmap0 [9] "RAW" rfl⟩

/-- C9 counterexample: at `now = last_heartbeat_sent + heartbeat_period`
exactly (now 30, last 0, period 30), the source's strict test
`time.time() > last_beat + heartbeat_period` sends nothing, while the
claimed `now ≥ last + period` test would send a heartbeat. -/
theorem heartbeat_at_threshold_counterexample :
    heartbeatStep 30 0 30 = (none, 0)
    ∧ claimedHeartbeatStep 30 0 30 = (some heartbeatFrame, 30)
    ∧ (0 + 30 : Nat) ≤ 30 := by decide

/-- C9 amended: the Manager sends a heartbeat on an iteration iff
`now > last_heartbeat_sent + heartbeat_period` (strictly), in which case the
single frame sent is the 4-byte little-endian encoding of `0xFFFFFFFF` and
`last_heartbeat_sent` becomes `now`; otherwise nothing is sent and
`last_heartbeat_sent` is unchanged. -/
theorem heartbeat_step_amended (now last p : Nat) :
    (∀ f lb, heartbeatStep now last p = (some f, lb)
      ↔ (last + p < now ∧ f = heartbeatFrame ∧ lb = now))
    ∧ (heartbeatStep now last p = (none, last) ↔ ¬ last + p < now)
    ∧ heartbeatFrame = [255, 255, 255, 255]
    ∧ heartbeatFrame.length = 4
    ∧ fromBytesLE4 heartbeatFrame = HEARTBEAT_CODE := by
  refine ⟨?_, ?_, by decide, by decide, by decide⟩
  · intro f lb
    unfold heartbeatStep
    split
    · rename_i hlt
      simp only [Prod.mk.injEq, Option.some.injEq]
      constructor
      · rintro ⟨a, b⟩
        exact ⟨hlt, a.symm, b.symm⟩
      · rintro ⟨-, a, b⟩
        exact ⟨a.symm, b.symm⟩
    · rename_i hlt
      simp_all
  · unfold heartbeatStep
    split <;> simp_all

/-- C6: for a `task_id` of the form `<id>;<task_type>` the routing type
computed by `split(';')[1]` is the suffix after the first `';'`; for a
`task_id` with no `';'` the derivation yields no type (Python raises
`IndexError`) and the batch handler fails rather than routing to `RAW`. -/
theorem task_type_routing (idc ty s : List Char) (st : LoopState)
    (now : Nat) (b : PyVal) (h1 : ';' ∉ idc) (h2 : ';' ∉ ty)
    (h3 : ';' ∉ s) :
    deriveTaskType (idc ++ ';' :: ty) = some ty
    ∧ suffixAfterFirstSemi (idc ++ ';' :: ty) = some ty
    ∧ deriveTaskType s = none
    ∧ handleIncoming st now (InMsg.taskBatch [⟨s, b⟩])
        = Except.error "IndexError" := by
  refine ⟨deriveTaskType_found idc ty h1 h2,
    suffixAfterFirstSemi_found idc ty h1, deriveTaskType_no_semi s h3, ?_⟩
  simp only [handleIncoming, enqueueRecvBatch, enqueueRecvTask,
    deriveTaskType_no_semi s h3]
  rfl

/-- Witness for C6 at concrete strings (`"t1;RAW"` and the semicolon-free
`"x"`). -/
theorem task_type_routing_witness :
    (';' ∉ ['t', '1'] ∧ ';' ∉ ['R', 'A', 'W'] ∧ ';' ∉ ['x'])
    ∧ (deriveTaskType (['t', '1'] ++ ';' :: ['R', 'A', 'W'])
          = some ['R', 'A', 'W']
      ∧ suffixAfterFirstSemi (['t', '1'] ++ ';' :: ['R', 'A', 'W'])
          = some ['R', 'A', 'W']
      ∧ deriveTaskType ['x'] = none
      ∧ handleIncoming loopState0 5 (InMsg.taskBatch [⟨['x'], .bytes []⟩])
          = Except.error "IndexError") :=
  ⟨⟨by decide, by decide, by decide⟩,
    task_type_routing ['t', '1'] ['R', 'A', 'W'] ['x'] loopState0 5
      (.bytes []) (by decide) (by decide) (by decide)⟩

theorem pushIteration_sent_nonempty (mqs ppp : Nat) (st : PushState)
    (now : Nat) (deq : Option (List Nat)) (msgs : List (List Nat))
    (h : (pushIteration mqs ppp st now deq).2 = some msgs) : msgs ≠ [] := by
  unfold pushIteration at h
  split at h
  · split at h
    · simp at h
    · rename_i hne
      simp only [Prod.snd, Option.some.injEq] at h
      subst h
      exact hne
  · simp at h

theorem pushRun_sent_nonempty (mqs ppp : Nat)
    (evs : List (Nat × Option (List Nat))) :
    ∀ (st : PushState) (m : List (List Nat)),
      m ∈ (pushRun mqs ppp st evs).2 → m ≠ [] := by
  induction evs with
  | nil =>
    intro st m hm
    simp [pushRun] at hm
  | cons e rest ih =>
    intro st m hm
    obtain ⟨now, deq⟩ := e
    unfold pushRun at hm
    simp only [List.mem_append] at hm
    rcases hm with hm | hm
    · rcases hs : (pushIteration mqs ppp st now deq).2 with _ | msgs
      · rw [hs] at hm
        simp at hm
      · rw [hs] at hm
        simp only [Option.toList_some, List.mem_singleton] at hm
        subst hm
        exact pushIteration_sent_nonempty mqs ppp st now deq m hs
    · exact ih _ m hm

/-- C7 counterexample: with `max_queue_size = 5` and
`push_poll_period = 10`, on the trace where the flush condition fires at
`t = 100` with an empty buffer and an item is dequeued at `t = 105`, the
source sends nothing (its timer was reset at `t = 100` without a flush),
while the claimed rule — flush when the period has elapsed since the last
actual flush — would send the item at `t = 105`. -/
theorem push_flush_counterexample :
    (pushRun 5 10 ⟨[], 0⟩ pushTrace).2 = []
    ∧ (claimedPushRun 5 10 ⟨[], 0⟩ pushTrace).2 = [[[0]]]
    ∧ ([] : List (List (List Nat))) ≠ [[[0]]] := by decide

/-- C7 amended: the result pusher dequeues with timeout
`push_poll_period = max(10 ms, poll_period)`; an iteration sends the
accumulated buffer as one multi-frame message exactly when the buffer is
nonempty and either its size has reached `max_queue_size` or
`push_poll_period` has elapsed since `last_beat` — a timer that is reset
whenever the flush condition fires, even when the buffer was empty and
nothing was sent; after a send the buffer is emptied, and no run of the
pusher ever sends an empty message. -/
theorem push_results_amended (mqs ppp pp : Nat) (st : PushState) (now : Nat)
    (deq : Option (List Nat)) :
    (∀ st' msgs, pushIteration mqs ppp st now deq = (st', some msgs)
      ↔ (msgs = st.items ++ deq.toList ∧ msgs ≠ []
        ∧ (mqs ≤ msgs.length ∨ st.last_beat + ppp < now)
        ∧ st' = ⟨[], now⟩))
    ∧ ((mqs ≤ (st.items ++ deq.toList).length ∨ st.last_beat + ppp < now)
      → (pushIteration mqs ppp st now deq).1.last_beat = now)
    ∧ (¬(mqs ≤ (st.items ++ deq.toList).length ∨ st.last_beat + ppp < now)
      → pushIteration mqs ppp st now deq
          = (⟨st.items ++ deq.toList, st.last_beat⟩, none))
    ∧ pushPollPeriod pp = max 10 pp
    ∧ (∀ evs st₀ m, m ∈ (pushRun mqs ppp st₀ evs).2 → m ≠ []) := by
  refine ⟨?_, ?_, ?_, rfl, fun evs st₀ m hm =>
    pushRun_sent_nonempty mqs ppp evs st₀ m hm⟩
  · intro st' msgs
    unfold pushIteration
    split
    · rename_i hcond
      split
      · rename_i hemp
        simp only [Prod.mk.injEq]
        constructor
        · rintro ⟨-, h2⟩
          cases h2
        · rintro ⟨h1, h2, -, -⟩
          exact absurd (h1.trans hemp) h2
      · rename_i hemp
        simp only [Prod.mk.injEq, Option.some.injEq]
        constructor
        · rintro ⟨h1, h2⟩
          subst h2
          exact ⟨rfl, hemp, hcond, h1.symm⟩
        · rintro ⟨h1, -, -, h2⟩
          exact ⟨h2.symm, h1.symm⟩
    · rename_i hcond
      simp only [Prod.mk.injEq]
      constructor
      · rintro ⟨-, h2⟩
        cases h2
      · rintro ⟨h1, -, hc, -⟩
        subst h1
        exact absurd hc hcond
  · intro hc
    unfold pushIteration
    rw [if_pos hc]
    split <;> rfl
  · intro hc
    unfold pushIteration
    rw [if_neg hc]

theorem sentFor_append (ty : String) (l₁ l₂ : List (String × τ)) :
    sentFor ty (l₁ ++ l₂) = sentFor ty l₁ ++ sentFor ty l₂ := by
  simp [sentFor, List.filterMap_append]

theorem arrivalsFor_cons (ty : String) (e : DEvent τ)
    (evs : List (DEvent τ)) :
    arrivalsFor ty (e :: evs) = arrivalsFor ty [e] ++ arrivalsFor ty evs := by
  cases e with
  | enq ty' t =>
    simp only [arrivalsFor, List.filterMap_cons, List.filterMap_nil]
    split <;> simp
  | disp ty' =>
    simp [arrivalsFor, List.filterMap_cons]

theorem dstep_balance (ty : String) (st : DState τ) (e : DEvent τ) :
    sentFor ty (dstep st e).sent ++ (dstep st e).queues ty
      = (sentFor ty st.sent ++ st.queues ty) ++ arrivalsFor ty [e] := by
  cases e with
  | enq ty' t =>
    by_cases h : ty' = ty
    · subst h
      simp [dstep, arrivalsFor]
    · have h' : ¬ ty = ty' := fun hc => h hc.symm
      simp [dstep, arrivalsFor, if_neg h, if_neg h']
  | disp ty' =>
    rcases hq : st.queues ty' with _ | ⟨x, rest⟩
    · simp [dstep, hq, arrivalsFor]
    · by_cases h : ty' = ty
      · subst h
        simp [dstep, hq, sentFor_append, sentFor, arrivalsFor]
      · have h' : ¬ ty = ty' := fun hc => h hc.symm
        simp [dstep, hq, sentFor_append, sentFor, arrivalsFor, if_neg h,
          if_neg h']

theorem drun_balance (ty : String) (evs : List (DEvent τ)) :
    ∀ st : DState τ,
      sentFor ty (drun st evs).sent ++ (drun st evs).queues ty
        = (sentFor ty st.sent ++ st.queues ty) ++ arrivalsFor ty evs := by
  induction evs with
  | nil =>
    intro st
    simp [drun, arrivalsFor]
  | cons e rest ih =>
    intro st
    have h2 := ih (dstep st e)
    have h1 := dstep_balance ty st e
    calc sentFor ty (drun st (e :: rest)).sent ++ (drun st (e :: rest)).queues ty
        = sentFor ty (drun (dstep st e) rest).sent
            ++ (drun (dstep st e) rest).queues ty := rfl
      _ = (sentFor ty (dstep st e).sent ++ (dstep st e).queues ty)
            ++ arrivalsFor ty rest := h2
      _ = ((sentFor ty st.sent ++ st.queues ty) ++ arrivalsFor ty [e])
            ++ arrivalsFor ty rest := by rw [h1]
      _ = (sentFor ty st.sent ++ st.queues ty)
            ++ (arrivalsFor ty [e] ++ arrivalsFor ty rest) :=
            List.append_assoc _ _ _
      _ = (sentFor ty st.sent ++ st.queues ty) ++ arrivalsFor ty (e :: rest) := by
            rw [← arrivalsFor_cons ty e rest]

/-- The per-type send log is exactly a prefix of the per-type arrival order:
what has been sent, followed by what still waits in the queue, is the
arrival sequence. -/
theorem dispatch_balance (ty : String) (evs : List (DEvent τ)) :
    sentFor ty (drun dinit evs).sent ++ (drun dinit evs).queues ty
      = arrivalsFor ty evs := by
  have h := drun_balance ty evs dinit
  simpa [dinit, sentFor] using h

/-- C1: per-type dispatch FIFO.  For any event interleaving, the `i`-th and
`j`-th tasks of type `ty` sent on the downlink are exactly the `i`-th and
`j`-th tasks of type `ty` that were enqueued: so if `A` (arrival index `i`)
arrived before `B` (arrival index `j`, `i < j`) and `B` was dispatched, then
`A` was dispatched at an earlier position of the send log. -/
theorem dispatch_fifo {τ : Type} (evs : List (DEvent τ)) (ty : String)
    (i j : Nat) (hij : i < j)
    (hj : j < (sentFor ty (drun dinit evs).sent).length) :
    (sentFor ty (drun dinit evs).sent)[i]? = (arrivalsFor ty evs)[i]?
    ∧ (sentFor ty (drun dinit evs).sent)[j]? = (arrivalsFor ty evs)[j]?
    ∧ ((sentFor ty (drun dinit evs).sent)[i]?).isSome = true := by
  have hb := dispatch_balance ty evs
  have hi : i < (sentFor ty (drun dinit evs).sent).length := lt_trans hij hj
  refine ⟨?_, ?_, ?_⟩
  · rw [← hb, List.getElem?_append_left hi]
  · rw [← hb, List.getElem?_append_left hj]
  · simp [List.getElem?_eq_getElem hi]

/-- Witness for C1 on a concrete run: two tasks of type `"x"` arrive and are
both dispatched. -/
theorem dispatch_fifo_witness :
    ((0 : Nat) < 1
      ∧ 1 < (sentFor "x"
          (drun dinit [DEvent.enq "x" (5 : Nat), DEvent.enq "x" 6,
            DEvent.disp "x", DEvent.disp "x"]).sent).length)
    ∧ ((sentFor "x" (drun dinit [DEvent.enq "x" (5 : Nat), DEvent.enq "x" 6,
            DEvent.disp "x", DEvent.disp "x"]).sent)[0]?
          = (arrivalsFor "x" [DEvent.enq "x" (5 : Nat), DEvent.enq "x" 6,
            DEvent.disp "x", DEvent.disp "x"])[0]?
      ∧ (sentFor "x" (drun dinit [DEvent.enq "x" (5 : Nat), DEvent.enq "x" 6,
            DEvent.disp "x", DEvent.disp "x"]).sent)[1]?
          = (arrivalsFor "x" [DEvent.enq "x" (5 : Nat), DEvent.enq "x" 6,
            DEvent.disp "x", DEvent.disp "x"])[1]?
      ∧ ((sentFor "x" (drun dinit [DEvent.enq "x" (5 : Nat), DEvent.enq "x" 6,
            DEvent.disp "x", DEvent.disp "x"]).sent)[0]?).isSome = true) :=
  ⟨⟨by decide, by decide⟩,
    dispatch_fifo [DEvent.enq "x" (5 : Nat), DEvent.enq "x" 6,
      DEvent.disp "x", DEvent.disp "x"] "x" 0 1 (by decide) (by decide)⟩

theorem put_aux_cases {α : Type} (w : Nat → Bool) (m : α) (mt : Nat) :
    ∀ (n i tm cw : Nat), mt - cw ≤ n →
      put_aux w m mt i tm cw = ([m], true)
      ∨ (put_aux w m mt i tm cw = ([], false)
        ∧ ∀ j ∈ put_polls w mt i tm cw, w j = false) := by
  intro n
  induction n with
  | zero =>
    intro i tm cw hn
    have hcw : ¬ cw < mt := by omega
    rw [put_aux, put_polls]
    right
    simp [if_neg hcw]
  | succ n ih =>
    intro i tm cw hn
    by_cases hcw : cw < mt
    · cases hw : w i with
      | true =>
        rw [put_aux]
        left
        simp [if_pos hcw, hw]
      | false =>
        have hrec := ih (i + 1) (tm + 1) (cw + (tm + 1)) (by omega)
        rw [put_aux, put_polls]
        simp only [if_pos hcw, hw, Bool.false_eq_true, if_false]
        rcases hrec with h | ⟨h1, h2⟩
        · left
          exact h
        · right
          refine ⟨h1, ?_⟩
          intro j hj
          rcases List.mem_cons.mp hj with rfl | hj'
          · exact hw
          · exact h2 j hj'
    · rw [put_aux, put_polls]
      right
      simp [if_neg hcw]

/-- C10: `TasksOutgoing.put` either sends the message exactly once and
returns normally, or the socket was not writable at any of the polls it
performed within the `max_timeout`-bounded waits and it raises
`zmq.error.Again` having sent nothing; it never both sends and raises, and
never returns without sending. -/
theorem tasks_outgoing_put_dichotomy {α : Type} (writable : Nat → Bool)
    (message : α) (max_timeout : Nat) :
    tasksOutgoingPut writable message max_timeout = ([message], true)
    ∨ (tasksOutgoingPut writable message max_timeout = ([], false)
      ∧ ∀ j ∈ put_polls writable max_timeout 0 0 0, writable j = false) :=
  put_aux_cases writable message max_timeout max_timeout 0 0 0 (by omega)

end FuncxManager
